import Mathlib

/-!
Verification of the geoEpic repository against its natural-language
specification.  Python source under `src/geoEpic` is shallowly embedded:
pure functions become Lean functions, file-backed state becomes explicit
state passing (a file is its list of lines, a directory tree is a map from
paths to file contents), and fallible code returns `Except`.  Machine
floats are modelled by exact rationals; fixed-width text fields are lists
of characters.
-/

/-! ## Python string and number helpers -/

/-- Whitespace recognised by Python's `str.strip` (the forms that occur in
the embedded files). -/
def isSpc (c : Char) : Bool := c = ' ' || c = '\t' || c = '\n' || c = '\r'

/-- Python `str.strip` on a list of characters: drop whitespace from both
ends. -/
def pyStrip (l : List Char) : List Char :=
  ((l.dropWhile isSpc).reverse.dropWhile isSpc).reverse

/-- Decimal digit character for `k < 10` (`'0'` + k). -/
def digitChar (k : Nat) : Char := Char.ofNat (48 + k)

/-- Numeric value of a decimal digit character. -/
def digitVal (c : Char) : Nat := c.toNat - 48

/-- Test for a decimal digit (Python `str.isdigit` on ASCII digits, the
alphabet `int`/`float` accept). -/
def isDigitCh (c : Char) : Bool := '0' ≤ c && c ≤ '9'

/-- Decimal digits of a natural number, most significant first. -/
def natDigits (n : Nat) : List Char :=
  if _h : n < 10 then [digitChar n]
  else natDigits (n / 10) ++ [digitChar (n % 10)]
  termination_by n
  decreasing_by
    exact Nat.div_lt_self (by omega) (by omega)

/-- Decimal rendering of an integer, with a leading minus sign when
negative. -/
def intChars (v : Int) : List Char :=
  if v < 0 then '-' :: natDigits (-v).toNat else natDigits v.toNat

/-- Right-justify a character list in a field of width `w` by padding with
spaces on the left, as Python's `format(v, "4d")` does. -/
def padLeftSpaces (w : Nat) (l : List Char) : List Char :=
  List.replicate (w - l.length) ' ' ++ l

/-- Python `f"{v:4d}"`: the integer right-justified in a 4-character
field (wider if the rendering needs more characters). -/
def fmtInt4 (v : Int) : List Char := padLeftSpaces 4 (intChars v)

/-- Value of a list of decimal digits, most significant first. -/
def digitsVal (l : List Char) : Nat :=
  l.foldl (fun a c => a * 10 + digitVal c) 0

/-- Parse a non-empty all-digit character list to a natural number. -/
def parseNatDigits (l : List Char) : Option Nat :=
  if l.isEmpty then none
  else if l.all isDigitCh then some (digitsVal l) else none

/-- Python `int(s)`: strip whitespace, accept an optional sign followed by
decimal digits. -/
def pyIntOf (l : List Char) : Option Int :=
  match pyStrip l with
  | '-' :: r => (parseNatDigits r).map (fun n => -(n : Int))
  | '+' :: r => (parseNatDigits r).map (fun n => (n : Int))
  | r => (parseNatDigits r).map (fun n => (n : Int))

/-- Python `s[a:b]` on a character list with non-negative bounds. -/
def lineSlice (l : List Char) (a b : Nat) : List Char := (l.drop a).take (b - a)

/-- Truncation toward zero: `numpy.astype(int)` and Python `int()` on a
real value. -/
def pyTrunc (q : ℚ) : ℤ := if q < 0 then ⌈q⌉ else ⌊q⌋

/-! ## Claim C5 — crop-parameter decimal split (`io/cropcom.py`)

`CropCom._split_integer_decimal` fills, for every value `v` of a split
column, `X_v1 = np.floor(v)` and `X_v2 = (v - np.floor(v)) * 100`;
`CropCom._combine_integer_decimal` recombines `X_v1.astype(int) + X_v2/100`.
The embedding works on a single column value; the pandas code applies the
same arithmetic elementwise. -/

/-- Designated split columns of the crop-parameter table
(`CropCom.split_columns`). -/
def split_columns : List String :=
  ["DLAP1", "DLAP2", "WAC2", "PPLP1", "PPLP2", "FRST1", "FRST2"]

/-- Embedding of `CropCom._split_integer_decimal` on one column value:
the two virtual columns produced for `v`. -/
def split_integer_decimal (v : ℚ) : ℚ × ℚ :=
  ((⌊v⌋ : ℚ), (v - (⌊v⌋ : ℚ)) * 100)

/-- Embedding of `CropCom._combine_integer_decimal` on one column value:
`v1.astype(int) + v2 / 100`. -/
def combine_integer_decimal (v1 v2 : ℚ) : ℚ :=
  ((pyTrunc v1 : ℤ) : ℚ) + v2 / 100

/-! ## Dataframes and the roster filter DSL (`utils/misc.py`)

A pandas dataframe is modelled by its column names and its rows; a row is
the list of its cell values (uninterpreted strings), positionally aligned
the columns.  The pandas integer index is not modelled; positional order
is the list order. -/

structure DataFrame where
  cols : List String
  rows : List (List String)
  deriving DecidableEq, Repr

/-- Python float literal parsing (`float(s)`) for the decimal forms that
occur in filter expressions: optional sign, digits, optional fractional
part.  Exponent, infinity and NaN forms are not modelled. -/
def parseUnsignedFloat (r : List Char) : Option ℚ :=
  let intPart := r.takeWhile isDigitCh
  let rest := r.dropWhile isDigitCh
  match rest with
  | [] => if intPart.isEmpty then none else some (digitsVal intPart : ℚ)
  | '.' :: frac =>
      if frac.all isDigitCh && !(intPart.isEmpty && frac.isEmpty) then
        some ((digitsVal intPart : ℚ) + (digitsVal frac : ℚ) / (10 : ℚ) ^ frac.length)
      else none
  | _ => none

/-- Python float literal parsing continued: optional sign in front of the
unsigned form. -/
def parseFloatChars (l : List Char) : Option ℚ :=
  match pyStrip l with
  | '-' :: r => (parseUnsignedFloat r).map Neg.neg
  | '+' :: r => parseUnsignedFloat r
  | r => parseUnsignedFloat r

/-- Python `float(s)` on a string. -/
def pyFloat (s : String) : Option ℚ := parseFloatChars s.toList

/-- Split a character list on a separator character; Python
`s.split(sep)` for a one-character separator. -/
def splitOnChar (sep : Char) : List Char → List (List Char)
  | [] => [[]]
  | c :: rest =>
      let r := splitOnChar sep rest
      if c = sep then [] :: r
      else
        match r with
        | [] => [[c]]
        | h :: t => (c :: h) :: t

/-- Python `s.split(sep)` on strings, one-character separator. -/
def pySplit (s : String) (sep : Char) : List String :=
  (splitOnChar sep s.toList).map String.mk

/-- Python `s.strip()` on strings. -/
def pyStripStr (s : String) : String := String.mk (pyStrip s.toList)

/-- Python `s.startswith(pre)`. -/
def pyStartsWith (s pre : String) : Bool := pre.toList.isPrefixOf s.toList

/-- Python `s.endswith(suf)`. -/
def pyEndsWith (s suf : String) : Bool := suf.toList.isSuffixOf s.toList

/-- Python slice `l[a:b]` with integer (possibly negative) bounds, as
`DataFrame.iloc` uses them: negative bounds count from the end, the upper
bound is clamped to the length. -/
def pyIlocSlice (l : List (List String)) (a b : ℤ) : List (List String) :=
  let n : ℤ := l.length
  let a' : ℤ := if a < 0 then max 0 (n + a) else a
  let b' : ℤ := if b < 0 then max 0 (n + b) else b
  (l.drop a'.toNat).take (b'.toNat - a'.toNat)

/-- Embedding of the `Range(a, b)` branch of `filter_dataframe`
(`utils/misc.py` lines 62-75): `low_idx = floor(a·N)` and
`high_idx = ceil(b·N)` clamped to `[0, N]`, then `df.iloc[low:high]`. -/
def applyRange (df : DataFrame) (lo hi : ℚ) : DataFrame :=
  let n : ℤ := df.rows.length
  let lowIdx : ℤ := max 0 ⌊lo * (n : ℚ)⌋
  let highIdx : ℤ := min n ⌈hi * (n : ℚ)⌉
  { df with rows := pyIlocSlice df.rows lowIdx highIdx }

/-- Python exceptions that the embedded code can raise. -/
inductive PyErr where
  | typeError (msg : String)
  | keyError (key : String)
  | valueError (msg : String)
  | indexError
  | osError
  | sqlOperationalError (msg : String)
  | fileNotFoundError (msg : String)
  deriving DecidableEq, Repr

/-- Embedding of one atomic filter expression of `filter_dataframe`
(`utils/misc.py` lines 60-84): a `Range(...)` literal, a `Random(...)`
literal, or a pandas boolean query.  The pandas query engine and the
random sampler are external to the DSL logic and enter as parameters. -/
def applyAtom (query : DataFrame → String → Except PyErr DataFrame)
    (sample : DataFrame → ℚ → DataFrame) (df : DataFrame) (e : String) :
    Except PyErr DataFrame :=
  if pyStartsWith e "Range(" && pyEndsWith e ")" then
    let values := pySplit (String.mk ((e.toList.drop 6).dropLast)) ','
    match values[0]?, values[1]? with
    | some s0, some s1 =>
        match pyFloat s0, pyFloat s1 with
        | some lo, some hi => .ok (applyRange df lo hi)
        | _, _ => .error (.valueError "could not convert string to float")
    | _, _ => .error .indexError
  else if pyStartsWith e "Random(" && pyEndsWith e ")" then
    match pyFloat (String.mk ((e.toList.drop 7).dropLast)) with
    | some frac => .ok (sample df frac)
    | none => .error (.valueError "could not convert string to float")
  else query df e

/-- One `;`-joined sub-expression of `filter_dataframe`: split on `;`,
strip, and fold the atomic filters over a copy of the frame. -/
def applySubexpr (query : DataFrame → String → Except PyErr DataFrame)
    (sample : DataFrame → ℚ → DataFrame) (df : DataFrame) (sub : String) :
    Except PyErr DataFrame :=
  ((pySplit sub ';').map pyStripStr).foldlM (applyAtom query sample) df

/-- Embedding of `pd.concat`: the frames concatenated here always share
the column list of the source frame, so only the row lists are joined. -/
def pd_concat (dfs : List DataFrame) : DataFrame :=
  { cols := match dfs with | [] => [] | d :: _ => d.cols
    rows := (dfs.map DataFrame.rows).flatten }

/-- Keep, for each key, only the last row bearing it, preserving the order
of the kept rows: `pandas.drop_duplicates(keep='last')`. -/
def dedupKeepLast (key : List String → Option String) (rows : List (List String)) :
    List (List String) :=
  rows.foldr (fun r acc => if acc.any (fun r2 => decide (key r2 = key r)) then acc else r :: acc) []

/-- Embedding of `DataFrame.drop_duplicates(subset=c, keep='last')`:
raises `KeyError` when the subset column is absent. -/
def drop_duplicates_last (df : DataFrame) (subset : String) : Except PyErr DataFrame :=
  match df.cols.findIdx? (fun c => c == subset) with
  | none => .error (.keyError subset)
  | some i => .ok { df with rows := dedupKeepLast (fun r => r[i]?) df.rows }

/-- Embedding of `filter_dataframe` (`utils/misc.py` lines 46-95).  The
expression is split on `+` only when it contains exactly one `+`; with two
or more `+` the source falls through to `return df.reset_index()`, which
returns the frame unfiltered (the materialised positional index column is
not modelled).  Two or more sub-frames are concatenated and deduplicated
on the `FieldID` column, keeping the last occurrence. -/
def filter_dataframe (query : DataFrame → String → Except PyErr DataFrame)
    (sample : DataFrame → ℚ → DataFrame) (df : DataFrame)
    (expression : Option String) : Except PyErr DataFrame :=
  match expression with
  | none => .ok df
  | some expr =>
    if expr.toList.count '+' < 2 then
      let exps := if expr.toList.count '+' = 1
        then (pySplit expr '+').map pyStripStr
        else [expr]
      do
        let filtered ← exps.mapM (applySubexpr query sample df)
        match filtered with
        | [d] => pure d
        | ds => drop_duplicates_last (pd_concat ds) "FieldID"
    else
      .ok df

/-! ## SQL data logger (`io/data_logger/sql_writer.py`, `main.py`)

A table is its column list (creation order), a flag recording whether the
`SiteID` column was declared `PRIMARY KEY`, and its rows in rowid order.
A stored cell is `Option String`: `none` is SQL NULL.  SQLite column
types do not affect the logged values and are not modelled. -/

/-- Python dict lookup on a keyword-argument list. -/
def lookupKw (k : String) (kw : List (String × String)) : Option String :=
  (kw.find? (fun p => p.1 == k)).map Prod.snd

/-- Lookup of a stored cell in a schema-ordered row. -/
def lookupCell (k : String) (r : List (String × Option String)) : Option (Option String) :=
  (r.find? (fun p => p.1 == k)).map Prod.snd

structure SqlTable where
  schema : List String
  pkSiteID : Bool
  rows : List (List (String × Option String))
  deriving DecidableEq, Repr

/-- Non-null `SiteID` value of a stored row, the primary-key value
`INSERT OR REPLACE` conflicts on. -/
def rowKey (r : List (String × Option String)) : Option String :=
  match lookupCell "SiteID" r with
  | some (some v) => some v
  | _ => none

/-- Lazy table creation of `SQLTableWriter._write_row` (`sql_writer.py`
lines 68-79): the schema is the first row's key set, and `SiteID` is
marked `PRIMARY KEY` when present. -/
def createTable (kw : List (String × String)) : SqlTable :=
  { schema := kw.map Prod.fst
    pkSiteID := kw.any (fun p => p.1 == "SiteID")
    rows := [] }

/-- The `INSERT OR REPLACE` statement of `SQLTableWriter._write_row`
(`sql_writer.py` lines 81-87): unknown columns raise an operational error
as in SQLite; missing columns are stored as NULL; a conflict on a non-null
`SiteID` primary key deletes the conflicting rows and appends the new
row with a fresh rowid. -/
def insert_or_replace (t : SqlTable) (kw : List (String × String)) :
    Except PyErr SqlTable :=
  if kw.any (fun p => !(t.schema.contains p.1)) then
    .error (.sqlOperationalError "no such column")
  else
    let newRow := t.schema.map (fun c => (c, lookupKw c kw))
    let rows2 :=
      if t.pkSiteID then
        match lookupKw "SiteID" kw with
        | some v => (t.rows.filter (fun r => decide (rowKey r ≠ some v))) ++ [newRow]
        | none => t.rows ++ [newRow]
      else t.rows ++ [newRow]
    .ok { t with rows := rows2 }

/-- Embedding of `SQLTableWriter._write_row` (`sql_writer.py` lines
67-87): create the table on first use (`CREATE TABLE IF NOT EXISTS`),
then `INSERT OR REPLACE` the row. -/
def write_row (tbl : Option SqlTable) (kw : List (String × String)) :
    Except PyErr SqlTable :=
  insert_or_replace (match tbl with | none => createTable kw | some t => t) kw

/-- Embedding of `DataLogger.log_dict` (`data_logger/main.py` lines
57-72): open the writer for table `name` and write the row.  The logger
state maps each table name to its table, when created. -/
def log_dict (tables : String → Option SqlTable) (name : String)
    (kw : List (String × String)) : Except PyErr (String → Option SqlTable) :=
  (write_row (tables name) kw).map
    (fun t => fun n => if n = name then some t else tables n)

/-! ## Workspace.fetch_log / DataLogger.get (`core/workspace.py`,
`data_logger/main.py`)

`Workspace.fetch_log(func, keep)` executes
`return self.data_logger.get(func, keep)`; `DataLogger.get` is declared
`def get(self, func_name)`.  The call is modelled through Python calling
convention: passing more positional arguments than the callee declares
raises `TypeError` before the body runs. -/

/-- Python runtime values appearing in the modelled calls. -/
inductive PyVal where
  | str (s : String)
  | bool (b : Bool)
  deriving DecidableEq, Repr

structure DataLoggerSt where
  tables : String → Option SqlTable
  delete_after_use : Bool

/-- Embedding of the body of `DataLogger.get` (`main.py` lines 74-88):
query all rows of the table, then drop the table iff `delete_after_use`.
Querying a table that was never created is a SQLite operational error. -/
def DataLogger.get (st : DataLoggerSt) (func_name : String) :
    Except PyErr (DataLoggerSt × List (List (String × Option String))) :=
  match st.tables func_name with
  | none => .error (.sqlOperationalError "no such table")
  | some t =>
      let st2 := if st.delete_after_use
        then { st with tables := fun n => if n = func_name then none else st.tables n }
        else st
      .ok (st2, t.rows)

/-- Positional parameters of `DataLogger.get` after `self`, read off the
source signature `def get(self, func_name)`. -/
def dataLoggerGet_positional_params : List String := ["func_name"]

/-- Python call of `DataLogger.get` with an explicit positional argument
list: arity mismatch raises `TypeError` before the body runs. -/
def pyCallDataLoggerGet (st : DataLoggerSt) (args : List PyVal) :
    Except PyErr (DataLoggerSt × List (List (String × Option String))) :=
  if args.length ≠ dataLoggerGet_positional_params.length then
    .error (.typeError "get() takes 2 positional arguments but 3 were given")
  else
    match args with
    | [PyVal.str n] => DataLogger.get st n
    | _ => .error (.typeError "argument of unexpected type")

/-- Embedding of `Workspace.fetch_log` (`core/workspace.py` lines
165-176): `return self.data_logger.get(func, keep)` — the call passes two
positional arguments. -/
def Workspace.fetch_log (st : DataLoggerSt) (func : String) (keep : Bool) :
    Except PyErr (DataLoggerSt × List (List (String × Option String))) :=
  pyCallDataLoggerGet st [PyVal.str func, PyVal.bool keep]

/-! ## SIT site files (`io/inputs/sit.py`)

`SIT.save` runs its whole body inside `try: ... except: pass`.  The file
system is a map from path strings to file contents; whether a path can be
opened for writing is an oracle `writable`.  The in-memory template
mutations that precede a failed write are returned only on success; the
claim under check concerns raising and writing, not the in-memory state
after a swallowed error. -/

structure SITInfo where
  id : String
  lat : ℚ
  lon : ℚ
  elevation : ℚ
  slope_length : ℚ
  slope_steep : ℚ
  deriving DecidableEq

structure SITSt where
  template : List (Option String)
  info : SITInfo
  deriving DecidableEq

/-- Left-pad a digit list with zeros to width `w`. -/
def padZeros (w : Nat) (l : List Char) : List Char :=
  List.replicate (w - l.length) '0' ++ l

/-- Left-pad a string with spaces to width `w`. -/
def padLeftStr (w : Nat) (s : String) : String :=
  String.mk (List.replicate (w - s.length) ' ') ++ s

/-- Python `f"{q:8.2f}"`-style fixed-point formatting: round to `prec`
decimals and right-justify in a `w`-character field.  The rational is
rounded to nearest (binary-float tie behaviour is not modelled; the
claims proved about this formatter do not depend on tie-breaking). -/
def fmtFixed (w prec : Nat) (q : ℚ) : String :=
  let scaled : ℤ := ⌊q * (10 : ℚ) ^ prec + 1 / 2⌋
  let sign := if scaled < 0 then "-" else ""
  let a := scaled.natAbs
  let ip := a / 10 ^ prec
  let fp := a % 10 ^ prec
  padLeftStr w (sign ++ String.mk (natDigits ip) ++ "." ++ String.mk (padZeros prec (natDigits fp)))

/-- Write (create or overwrite) one file in a string-keyed file-system
map. -/
def updateFS (fs : String → Option String) (p c : String) : String → Option String :=
  fun q => if q = p then some c else fs q

/-- Embedding of the body of `SIT.save` (`io/inputs/sit.py` lines
106-152), the code inside the `try`: validate the site ID, resolve the
output path, pad and patch the template lines, and write the joined
template to the path (an unwritable path raises `OSError`, as `open`
does). -/
def SIT.save_body (s : SITSt) (output_dir : String) (writable : String → Bool)
    (fs : String → Option String) :
    Except PyErr ((String → Option String) × SITSt) :=
  if s.info.id = "" then .error (.valueError "Site ID is not set. Cannot write to file.")
  else
    let path :=
      if output_dir.endsWith ".SIT" then output_dir
      else if output_dir.endsWith ".sit" then output_dir.dropRight 4 ++ ".SIT"
      else output_dir ++ "/" ++ s.info.id ++ ".SIT"
    let tpl0 := if s.template.isEmpty then List.replicate 7 (some "") else s.template
    let tpl1 := tpl0 ++ List.replicate (7 - tpl0.length) (some "")
    let tpl2 := tpl1.map (fun o => some (o.getD ""))
    let line3 := ((tpl2[3]?).getD (some "")).getD ""
    let line4 := ((tpl2[4]?).getD (some "")).getD ""
    let new3 :=
      if 24 ≤ line3.length then
        fmtFixed 8 2 s.info.lat ++ fmtFixed 8 2 s.info.lon ++
          fmtFixed 8 2 s.info.elevation ++ line3.drop 24
      else
        fmtFixed 8 2 s.info.lat ++ fmtFixed 8 2 s.info.lon ++
          fmtFixed 8 2 s.info.elevation ++ "\n"
    let new4 :=
      if 64 ≤ line4.length then
        line4.take 48 ++ fmtFixed 8 2 s.info.slope_length ++
          fmtFixed 8 2 s.info.slope_steep ++ line4.drop 64
      else
        String.mk (List.replicate 48 ' ') ++ fmtFixed 8 2 s.info.slope_length ++
          fmtFixed 8 2 s.info.slope_steep ++ "\n"
    let tpl3 :=
      (((((tpl2.set 0 (some "Crop Simulations\n")).set 1 (some "Prototype\n")).set 2
          (some ("ID: " ++ s.info.id ++ "\n"))).set 3 (some new3)).set 4 (some new4)).set 5
        (some "                                                   \n")
    let content := String.join (tpl3.map (fun o => o.getD ""))
    if writable path then .ok (updateFS fs path content, { s with template := tpl3 })
    else .error .osError

/-- Embedding of `SIT.save`: the body wrapped in `try: ... except: pass`.
On any body error the call returns with the file system unchanged. -/
def SIT.save (s : SITSt) (output_dir : String) (writable : String → Bool)
    (fs : String → Option String) :
    Except PyErr ((String → Option String) × SITSt) :=
  match SIT.save_body s output_dir writable fs with
  | .ok r => .ok r
  | .error _ => .ok (fs, s)

/-! ## Parallel executor (`utils/parallel.py`)

Each scheduled task has one outcome: a value, an exception, or a timeout.
The outcome of task `i` is an oracle `outcomes i`; the nondeterministic
order in which `as_completed` yields the futures is a parameter
`completion_order` (each submitted future exactly once).  The collection
loop of `parallel_executor` (lines 84-99) catches timeout and exception
per future, records the failing index, and stores the value only when
`return_value` is set; `results` starts as `[None] * n` when
`return_value` else `[]` (line 33). -/

inductive TaskOutcome (α : Type) where
  | ok (v : α)
  | exc (msg : String)
  | timedOut
  deriving DecidableEq, Repr

/-- Processing of one completed future in the collection loop. -/
def peStep (outcomes : Nat → TaskOutcome α) (return_value : Bool)
    (st : List (Option α) × List Nat) (ind : Nat) : List (Option α) × List Nat :=
  match outcomes ind with
  | .ok v => (if return_value then st.1.set ind (some v) else st.1, st.2)
  | .exc _ => (st.1, st.2 ++ [ind])
  | .timedOut => (st.1, st.2 ++ [ind])

/-- Embedding of `parallel_executor` (`utils/parallel.py` lines 15-109):
returns `(results, failed_indices)` after folding the collection loop
over the completion order. -/
def parallel_executor (outcomes : Nat → TaskOutcome α) (n : Nat)
    (return_value : Bool) (completion_order : List Nat) :
    List (Option α) × List Nat :=
  completion_order.foldl (peStep outcomes return_value)
    (if return_value then List.replicate n none else [], [])

/-- Did the task produce a value (neither exception nor timeout)? -/
def isOkOutcome : TaskOutcome α → Bool
  | .ok _ => true
  | _ => false

/-! ## EPICCONT.DAT fixed-width fields (`core/model.py`)

The configuration file is its list of lines, each line a list of
characters, exactly the representation `readlines` produces and
`writelines` + `truncate` writes back. -/

/-- Gregorian leap year, as `datetime.date` validates it. -/
def isLeapYear (y : Int) : Bool := y % 4 = 0 && (y % 100 ≠ 0 || y % 400 = 0)

/-- Day count of a month, as `datetime.date` validates it. -/
def daysInMonth (y m : Int) : Int :=
  if m = 2 then (if isLeapYear y then 29 else 28)
  else if m = 4 || m = 6 || m = 9 || m = 11 then 30 else 31

/-- Validity of a `datetime.date(y, m, d)` construction. -/
def isValidDate (y m d : Int) : Bool :=
  1 ≤ y && y ≤ 9999 && 1 ≤ m && m ≤ 12 && 1 ≤ d && d ≤ daysInMonth y m

/-- Embedding of the `EPICModel.duration` setter (`core/model.py` lines
165-183): rewrite the first 4 characters of line 1 with `f"{value:4d}"`,
keep the rest of the line (`line0[4:] if len(line0) > 4 else '\n'`) and
all other lines.  `none` models the `IndexError` on an empty file. -/
def setDuration (f : List (List Char)) (v : Int) : Option (List (List Char)) :=
  match f with
  | [] => none
  | line0 :: rest =>
      let restOfLine := if 4 < line0.length then line0.drop 4 else ['\n']
      some ((fmtInt4 v ++ restOfLine) :: rest)

/-- Embedding of the `EPICModel.duration` getter (`core/model.py` lines
150-163): `int(line[0:4].strip())` on line 1. -/
def getDuration (f : List (List Char)) : Option Int :=
  match f with
  | [] => none
  | line0 :: _ => pyIntOf (pyStrip (lineSlice line0 0 4))

/-- Embedding of the `EPICModel.start_date` setter (`core/model.py` lines
113-148): keep the first 4 characters (duration), write year, month and
day as three `f"{x:4d}"` fields into characters 4-15, keep
`line0[16:] if len(line0) > 16 else '\n'` and all other lines. -/
def setStartDate (f : List (List Char)) (y m d : Int) : Option (List (List Char)) :=
  match f with
  | [] => none
  | line0 :: rest =>
      let durationPart := line0.take 4
      let restOfLine := if 16 < line0.length then line0.drop 16 else ['\n']
      some ((durationPart ++ fmtInt4 y ++ fmtInt4 m ++ fmtInt4 d ++ restOfLine) :: rest)

/-- Embedding of the `EPICModel.start_date` getter (`core/model.py` lines
95-111): parse characters 4-7, 8-11, 12-15 of line 1 as year, month and
day; `datetime.date` then validates the triple. -/
def getStartDate (f : List (List Char)) : Option (Int × Int × Int) :=
  match f with
  | [] => none
  | line0 :: _ =>
      match pyIntOf (pyStrip (lineSlice line0 4 8)),
            pyIntOf (pyStrip (lineSlice line0 8 12)),
            pyIntOf (pyStrip (lineSlice line0 12 16)) with
      | some y, some m, some d =>
          if isValidDate y m d then some (y, m, d) else none
      | _, _, _ => none

/-! ## EPICModel.run (`core/model.py` lines 290-385)

A directory tree is a map from paths (component lists) to file contents;
`os.path.getsize` is the content length.  Sandbox preparation — `rmtree`
plus `copytree` of the model directory, weather-file writing, the DAT
configuration files, and the engine subprocess — is a single external
effect `engine : FS → FS × Int` whose `Int` component is the process exit
status; `run` captures the process object but never reads its status. -/

/-- File system: path components to file contents. -/
def FS : Type := List String → Option String

/-- Output file name `f"{fid}.{out_type}"`. -/
def outName (fid t : String) : String := fid ++ "." ++ t

/-- Engine log file name `f"{fid}.log"`. -/
def logName (fid : String) : String := fid ++ ".log"

/-- Existence with non-zero size:
`os.path.exists(p) and os.path.getsize(p) > 0`. -/
def fileNonEmpty (fs : FS) (p : List String) : Bool :=
  match fs p with
  | some c => c.length != 0
  | none => false

/-- Effect of `shutil.move` on the file map. -/
def moveFile (fs : FS) (src dst : List String) : FS :=
  fun p => if p = dst then fs src else if p = src then none else fs p

/-- Effect of `shutil.rmtree dir` on the file map: every path below the
directory disappears. -/
def rmtreeFS (dir : List String) (fs : FS) : FS :=
  fun p => if dir <+: p then none else fs p

/-- The line `if 'ACY' not in self._output_types: append('ACY')` executed
at the top of `run`. -/
def ensureACY (ts : List String) : List String :=
  if "ACY" ∈ ts then ts else ts ++ ["ACY"]

/-- Python dict assignment `outputs[k] = v` on an association list:
replace in place when the key exists, append otherwise. -/
def setOutput : List (String × List String) → String → List String →
    List (String × List String)
  | [], k, v => [(k, v)]
  | (k2, v2) :: rest, k, v =>
      if k2 = k then (k, v) :: rest else (k2, v2) :: setOutput rest k v

/-- Python dict read `outputs[k]` (as an option). -/
def lookupOutput (outs : List (String × List String)) (k : String) :
    Option (List String) :=
  (outs.find? (fun p => p.1 == k)).map Prod.snd

structure EPICModelCfg where
  output_types : List String
  output_dir : List String
  log_dir : List String
  cache_path : List String
  delete_after_run : Bool

structure SiteState where
  site_id : String
  outputs : List (String × List String)

inductive RunError where
  | fileNotFound (kind : String)
  deriving DecidableEq, Repr

structure RunOutcome where
  launched : Bool
  fs : FS
  site_outputs : List (String × List String)
  err : Option RunError

/-- Run directory: `dest` when given, else
`{cache_path}/EPICRUNS/{site_id}`. -/
def runDir (cfg : EPICModelCfg) (fid : String) (dest : Option (List String)) :
    List String :=
  match dest with
  | some d => d
  | none => cfg.cache_path ++ ["EPICRUNS", fid]

/-- Output root: `self.output_dir if dest is None else dest`. -/
def outRoot (cfg : EPICModelCfg) (dest : Option (List String)) : List String :=
  match dest with
  | some d => d
  | none => cfg.output_dir

/-- The short-circuit test of `run` (`core/model.py` lines 315-321): all
enabled output files of the site exist and are non-empty under the output
root. -/
def allOutputsExist (cfg : EPICModelCfg) (fid : String)
    (dest : Option (List String)) (fs : FS) : Bool :=
  (ensureACY cfg.output_types).all
    (fun t => fileNonEmpty fs (outRoot cfg dest ++ [outName fid t]))

/-- The harvest loop of `run` (`core/model.py` lines 370-380): for each
enabled output kind in order, a missing or empty file in the run directory
moves the engine log `{fid}.log` to the log directory and raises
`FileNotFoundError`; otherwise the output is moved to the output root and
recorded in the site's outputs. -/
def processOutputs (newDir root logDir : List String) (fid : String) :
    FS → List (String × List String) → List String →
    FS × List (String × List String) × Option RunError
  | fs, outs, [] => (fs, outs, none)
  | fs, outs, t :: ts =>
      let src := newDir ++ [outName fid t]
      if fileNonEmpty fs src then
        processOutputs newDir root logDir fid
          (moveFile fs src (root ++ [outName fid t]))
          (setOutput outs t (root ++ [outName fid t])) ts
      else
        (moveFile fs (newDir ++ [logName fid]) (logDir ++ [logName fid]),
         outs, some (.fileNotFound t))

/-- The `finally` clause of `run` (`core/model.py` lines 381-385): remove
the run directory when `delete_after_run` is set or the cache path is the
RAM-backed `/dev/shm`. -/
def runCleanup (cfg : EPICModelCfg) (newDir : List String) (fs : FS) : FS :=
  if cfg.delete_after_run || decide (cfg.cache_path = ["/dev/shm"]) then
    rmtreeFS newDir fs
  else fs

/-- Embedding of `EPICModel.run` (`core/model.py` lines 290-385). -/
def EPICModel.run (cfg : EPICModelCfg) (site : SiteState)
    (dest : Option (List String)) (engine : FS → FS × Int) (fs : FS) :
    RunOutcome :=
  let fid := site.site_id
  let newDir := runDir cfg fid dest
  let root := outRoot cfg dest
  if allOutputsExist cfg fid dest fs then
    { launched := false
      fs := fs
      site_outputs :=
        (ensureACY cfg.output_types).foldl
          (fun o t => setOutput o t (root ++ [outName fid t])) site.outputs
      err := none }
  else
    let fs1 := (engine fs).1
    let pr := processOutputs newDir root cfg.log_dir fid fs1 site.outputs
      (ensureACY cfg.output_types)
    { launched := true
      fs := runCleanup cfg newDir pr.1
      site_outputs := pr.2.1
      err := pr.2.2 }

/-! ## Concrete fixtures for evaluating the filter DSL

A spec-conformant roster (it carries the required `SiteID` column and no
`FieldID` column) and trivial instantiations of the query and sampling
oracles, used to evaluate `filter_dataframe` at concrete inputs. -/

/-- Query oracle instantiation: the identity filter (unused by the
evaluated expressions, which contain only `Range` atoms). -/
def demoQuery : DataFrame → String → Except PyErr DataFrame := fun df _ => .ok df

/-- Sampler instantiation (unused by the evaluated expressions). -/
def demoSample : DataFrame → ℚ → DataFrame := fun df _ => df

/-- A two-row roster with the columns the workspace requires of run
rosters (`SiteID` present, no `FieldID`). -/
def rosterA : DataFrame :=
  { cols := ["SiteID", "lat"], rows := [["1", "a"], ["2", "b"]] }

/-- Outcome oracle for the C9 witness: task 0 succeeds, task 1 raises,
task 2 times out. -/
def outcomesW : Nat → TaskOutcome Nat :=
  fun i => if i = 0 then .ok 10 else if i = 1 then .exc "boom" else .timedOut

/-- Model configuration for the C2 witness. -/
def cfgW2 : EPICModelCfg :=
  { output_types := ["ACY"], output_dir := ["out"], log_dir := ["log"]
    cache_path := ["cache"], delete_after_run := true }

/-- Site for the C2 witness. -/
def siteW2 : SiteState := { site_id := "7", outputs := [] }

/-- File system for the C2 witness: the single enabled output already
exists non-empty under the output directory. -/
def fsW2 : FS := fun p => if p = ["out", "7.ACY"] then some "x" else none

/-- Model configuration for the C8 witness. -/
def cfgW8 : EPICModelCfg :=
  { output_types := ["ACY"], output_dir := ["out"], log_dir := ["log"]
    cache_path := ["cache"], delete_after_run := true }

/-- Site for the C8 witness. -/
def siteW8 : SiteState := { site_id := "7", outputs := [] }

/-- Engine effect for the C8 witness: the run writes only the engine log
into the sandbox (the output file is never produced) and exits 0. -/
def engineW8 : FS → FS × Int :=
  fun fs => (fun p => if p = ["cache", "EPICRUNS", "7", "7.log"] then some "engine log" else fs p, 0)

/-- Second engine effect for the C8 witness: same file-system effect,
different exit status. -/
def engineW8b : FS → FS × Int :=
  fun fs => (fun p => if p = ["cache", "EPICRUNS", "7", "7.log"] then some "engine log" else fs p, 1)

/-! # Theorems -/

theorem pyTrunc_intCast (n : ℤ) : pyTrunc (n : ℚ) = n := by
  unfold pyTrunc
  split <;> simp

/-- C5: for every value `v` in a designated split column, loading sets the
virtual columns to `⌊v⌋` and `(v − ⌊v⌋)·100`, and saving recombines them
as `int(v1) + v2/100`, reproducing `v` exactly — hence also at the file's
declared precision. -/
theorem c5_crop_decimal_split (v : ℚ) :
    split_integer_decimal v = ((⌊v⌋ : ℚ), (v - (⌊v⌋ : ℚ)) * 100) ∧
    combine_integer_decimal (split_integer_decimal v).1 (split_integer_decimal v).2 = v := by
  refine ⟨rfl, ?_⟩
  unfold combine_integer_decimal split_integer_decimal
  simp only [pyTrunc_intCast]
  ring

/-- C4 (code bug): every call of `Workspace.fetch_log` raises `TypeError`,
because it passes `keep` as a second positional argument to
`DataLogger.get`, whose signature `def get(self, func_name)` accepts only
one; the logged frame is never returned and `keep` never reaches the
logger. -/
theorem c4_fetch_log_always_type_error
    (st : DataLoggerSt) (func : String) (keep : Bool) :
    Workspace.fetch_log st func keep =
      .error (.typeError "get() takes 2 positional arguments but 3 were given") := rfl

/-- C1 (code bug): on a spec-conformant roster (columns `SiteID`, `lat`),
a `+`-joined filter raises `KeyError("FieldID")` — the union is
deduplicated on the legacy `FieldID` column, not on `SiteID` — and an
expression joining three sub-expressions with `+` is not filtered at all:
the roster comes back whole even though each sub-expression selects no
rows. -/
theorem c1_filter_union_divergence :
    filter_dataframe demoQuery demoSample rosterA
        (some "Range(0, 1) + Range(0, 1)") = .error (.keyError "FieldID") ∧
    filter_dataframe demoQuery demoSample rosterA
        (some "Range(0, 0) + Range(0, 0) + Range(0, 0)") = .ok rosterA ∧
    rosterA.rows.length = 2 := by
  refine ⟨rfl, rfl, rfl⟩

/-- Helper: every successful exit of the `SIT.save` body is a file write. -/
theorem SIT.save_body_ok_is_write (s : SITSt) (output_dir : String)
    (writable : String → Bool) (fs : String → Option String)
    (fs2 : String → Option String) (s2 : SITSt)
    (h : SIT.save_body s output_dir writable fs = .ok (fs2, s2)) :
    ∃ p c, fs2 = updateFS fs p c := by
  unfold SIT.save_body at h
  dsimp only at h
  repeat' split at h
  all_goals try exact Except.noConfusion h
  all_goals rw [Except.ok.injEq, Prod.mk.injEq] at h
  all_goals exact ⟨_, _, h.1.symm⟩

/-- C10: `SIT.save` never raises.  For every site state, output path,
writability oracle and file system — including unwritable paths, short or
`None`-laden templates and an unset site ID — it returns normally, and
the resulting file system is either unchanged (the body's exception was
swallowed) or the original with exactly one file written. -/
theorem c10_sit_save_never_raises (s : SITSt) (output_dir : String)
    (writable : String → Bool) (fs : String → Option String) :
    ∃ fs2 s2, SIT.save s output_dir writable fs = .ok (fs2, s2) ∧
      (fs2 = fs ∨ ∃ p c, fs2 = updateFS fs p c) := by
  cases h : SIT.save_body s output_dir writable fs with
  | ok r =>
      refine ⟨r.1, r.2, ?_, Or.inr (SIT.save_body_ok_is_write s output_dir writable fs r.1 r.2 ?_)⟩
      · unfold SIT.save
        rw [h]
      · rw [h]
  | error e =>
      refine ⟨fs, s, ?_, Or.inl rfl⟩
      unfold SIT.save
      rw [h]

/-- Helper: `Range(0, 1)` slices the whole frame back. -/
theorem applyRange_zero_one (df : DataFrame) : applyRange df 0 1 = df := by
  unfold applyRange pyIlocSlice
  dsimp only
  rw [zero_mul, one_mul, Int.floor_zero, Int.ceil_intCast, max_self, min_self]
  rw [if_neg (lt_irrefl 0), if_neg (by simp)]
  simp

/-- Helper: for fractions `0 ≤ a ≤ b ≤ 1` the `Range` slice is the plain
take-after-drop between `⌊a·N⌋` and `⌈b·N⌉`. -/
theorem applyRange_rows_eq (df : DataFrame) (a b : ℚ)
    (h0 : 0 ≤ a) (hab : a ≤ b) (h1 : b ≤ 1) :
    (applyRange df a b).rows =
      (df.rows.drop (⌊a * (df.rows.length : ℚ)⌋).toNat).take
        ((⌈b * (df.rows.length : ℚ)⌉).toNat - (⌊a * (df.rows.length : ℚ)⌋).toNat) := by
  have hN0 : (0 : ℚ) ≤ (df.rows.length : ℚ) := by positivity
  have hfl : (0 : ℤ) ≤ ⌊a * (df.rows.length : ℚ)⌋ :=
    Int.floor_nonneg.mpr (mul_nonneg h0 hN0)
  have hcl : ⌈b * (df.rows.length : ℚ)⌉ ≤ (df.rows.length : ℤ) := by
    rw [Int.ceil_le]
    calc b * (df.rows.length : ℚ) ≤ 1 * (df.rows.length : ℚ) :=
          mul_le_mul_of_nonneg_right h1 hN0
      _ = ((df.rows.length : ℤ) : ℚ) := by push_cast; ring
  have hfc : ⌊a * (df.rows.length : ℚ)⌋ ≤ ⌈b * (df.rows.length : ℚ)⌉ :=
    le_trans (Int.floor_le_ceil _)
      (Int.ceil_le_ceil (mul_le_mul_of_nonneg_right hab hN0))
  have hcast : (((df.rows.length : ℤ)) : ℚ) = (df.rows.length : ℚ) := by push_cast; ring
  unfold applyRange pyIlocSlice
  dsimp only
  rw [hcast, max_eq_right hfl, min_eq_right hcl]
  rw [if_neg (by omega), if_neg (by omega)]

/-- C6: for a roster of `N` rows and fractions `0 ≤ a ≤ b ≤ 1`, the
`Range(a, b)` filter keeps exactly the rows whose positional index lies in
`[⌊a·N⌋, ⌈b·N⌉)` — the `j`-th kept row is the `(⌊a·N⌋+j)`-th roster row —
so exactly `⌈b·N⌉ − ⌊a·N⌋` rows survive, and `Range(0, 1)` returns the
roster unchanged. -/
theorem c6_range_filter (df : DataFrame) (a b : ℚ)
    (h0 : 0 ≤ a) (hab : a ≤ b) (h1 : b ≤ 1) :
    (applyRange df a b).cols = df.cols ∧
    (applyRange df a b).rows.length =
      (⌈b * (df.rows.length : ℚ)⌉).toNat - (⌊a * (df.rows.length : ℚ)⌋).toNat ∧
    (∀ j : ℕ, (applyRange df a b).rows[j]? =
      if (⌊a * (df.rows.length : ℚ)⌋).toNat + j < (⌈b * (df.rows.length : ℚ)⌉).toNat
      then df.rows[(⌊a * (df.rows.length : ℚ)⌋).toNat + j]? else none) ∧
    applyRange df 0 1 = df := by
  have hN0 : (0 : ℚ) ≤ (df.rows.length : ℚ) := by positivity
  have hfl : (0 : ℤ) ≤ ⌊a * (df.rows.length : ℚ)⌋ :=
    Int.floor_nonneg.mpr (mul_nonneg h0 hN0)
  have hcl : ⌈b * (df.rows.length : ℚ)⌉ ≤ (df.rows.length : ℤ) := by
    rw [Int.ceil_le]
    calc b * (df.rows.length : ℚ) ≤ 1 * (df.rows.length : ℚ) :=
          mul_le_mul_of_nonneg_right h1 hN0
      _ = ((df.rows.length : ℤ) : ℚ) := by push_cast; ring
  have hfc : ⌊a * (df.rows.length : ℚ)⌋ ≤ ⌈b * (df.rows.length : ℚ)⌉ :=
    le_trans (Int.floor_le_ceil _)
      (Int.ceil_le_ceil (mul_le_mul_of_nonneg_right hab hN0))
  have hrows := applyRange_rows_eq df a b h0 hab h1
  set lo : ℕ := (⌊a * (df.rows.length : ℚ)⌋).toNat with hlo
  set hi : ℕ := (⌈b * (df.rows.length : ℚ)⌉).toNat with hhi
  have hhiLe : hi ≤ df.rows.length := by omega
  have hloLe : lo ≤ hi := by omega
  refine ⟨rfl, ?_, ?_, applyRange_zero_one df⟩
  · rw [hrows]
    simp only [List.length_take, List.length_drop]
    omega
  · intro j
    rw [hrows]
    by_cases hj : j < hi - lo
    · rw [List.getElem?_take_of_lt hj, List.getElem?_drop, if_pos (by omega)]
    · rw [List.getElem?_eq_none
        (by simp only [List.length_take, List.length_drop]; omega), if_neg (by omega)]

/-- Witness for C6 at a concrete roster: `Range(1/4, 1/2)` on four rows
keeps exactly the row at positional index `⌊1/4·4⌋ = 1`. -/
theorem c6_range_filter_witness :
    (applyRange (DataFrame.mk ["SiteID"] [["a"], ["b"], ["c"], ["d"]]) (1/4) (1/2)).rows[0]? =
      some ["b"] := by
  have h := (c6_range_filter (DataFrame.mk ["SiteID"] [["a"], ["b"], ["c"], ["d"]])
    (1/4) (1/2) (by norm_num) (by norm_num) (by norm_num)).2.2.1 0
  norm_num at h
  exact h

/-- Helper: searching an equality predicate finds the sought element
itself whenever it is present. -/
theorem find?_beq_self {k : String} {l : List String} (h : k ∈ l) :
    l.find? (fun c => c == k) = some k := by
  induction l with
  | nil => cases h
  | cons c rest ih =>
      by_cases hc : c = k
      · subst hc
        rw [List.find?_cons_of_pos _ (by simp)]
      · have h2 : k ∈ rest := by
          rcases List.mem_cons.mp h with h1 | h2
          · exact absurd h1.symm hc
          · exact h2
        rw [List.find?_cons_of_neg _ (by simpa using hc)]
        exact ih h2

/-- Helper: `find?` over a key-value list built by mapping over the key
list reduces to `find?` over the keys. -/
theorem find?_pair_map (schema : List String) (f : String → Option String) (k : String) :
    (schema.map (fun c => (c, f c))).find? (fun p => p.1 == k) =
      (schema.find? (fun c => c == k)).map (fun c => (c, f c)) := by
  induction schema with
  | nil => rfl
  | cons c rest ih =>
      by_cases hc : c = k
      · subst hc
        rw [List.map_cons, List.find?_cons_of_pos _ (by simp),
          List.find?_cons_of_pos _ (by simp)]
        rfl
      · rw [List.map_cons, List.find?_cons_of_neg _ (by simpa using hc),
          List.find?_cons_of_neg _ (by simpa using hc)]
        exact ih

/-- Helper: looking a key up in a schema-padded row built by mapping over
the schema finds the padding function's value, whenever the key is in the
schema. -/
theorem lookupCell_padded (schema : List String) (f : String → Option String)
    (k : String) (h : k ∈ schema) :
    lookupCell k (schema.map (fun c => (c, f c))) = some (f k) := by
  unfold lookupCell
  rw [find?_pair_map, find?_beq_self h]
  rfl

/-- Helper: a successful dict lookup means the key occurs among the
keys. -/
theorem lookupKw_mem {k : String} {kw : List (String × String)} {v : String}
    (h : lookupKw k kw = some v) : k ∈ kw.map Prod.fst := by
  unfold lookupKw at h
  cases hf : kw.find? (fun p => p.1 == k) with
  | none => rw [hf] at h; cases h
  | some p =>
      have hp := List.find?_some hf
      have hm := List.mem_of_find?_eq_some hf
      have : p.1 = k := by simpa using hp
      exact this ▸ List.mem_map_of_mem Prod.fst hm


/-- Helper: an upsert whose keys lie within the schema of a
`SiteID`-keyed table deletes the rows bearing the same key and appends
the schema-padded new row. -/
theorem insert_or_replace_upsert (t : SqlTable) (kw : List (String × String)) (v : String)
    (hpk : t.pkSiteID = true)
    (hkeys : ∀ k, k ∈ kw.map Prod.fst → k ∈ t.schema)
    (h : lookupKw "SiteID" kw = some v) :
    insert_or_replace t kw = .ok
      { t with rows :=
          (t.rows.filter (fun r => decide (rowKey r ≠ some v))) ++
            [t.schema.map (fun c => (c, lookupKw c kw))] } := by
  have hguard : (kw.any fun p => !(t.schema.contains p.1)) = false := by
    apply List.any_eq_false.mpr
    intro p hp
    simp [hkeys p.1 (List.mem_map_of_mem Prod.fst hp)]
  unfold insert_or_replace
  rw [hguard, hpk, h]
  simp

/-- Helper: a creating row bearing `SiteID` marks the column as primary
key. -/
theorem createTable_pk (kw : List (String × String)) (v : String)
    (h : lookupKw "SiteID" kw = some v) : (createTable kw).pkSiteID = true := by
  unfold lookupKw at h
  cases hf : kw.find? (fun p => p.1 == "SiteID") with
  | none => rw [hf] at h; cases h
  | some p =>
      have hp := List.find?_some hf
      have hm : p ∈ kw := List.mem_of_find?_eq_some hf
      exact List.any_eq_true.mpr ⟨p, hm, hp⟩

/-- C3 (amended): two `log(name, row)` calls carrying the same `SiteID`
value, the first of which creates the table and the second of which
brings no key outside the first row's key set, leave table `name` with a
single row — the schema-padded row of the later call — so there is
exactly one row for that `SiteID` and its values are those of the later
call.  The key-set condition is forced by the counterexample below: a
second row with an extra key makes the `INSERT OR REPLACE` fail on the
unknown column instead of replacing the row. -/
theorem c3_log_key_uniqueness (tables0 : String → Option SqlTable) (name : String)
    (kw1 kw2 : List (String × String)) (v : String)
    (hnone : tables0 name = none)
    (h1 : lookupKw "SiteID" kw1 = some v)
    (h2 : lookupKw "SiteID" kw2 = some v)
    (hsub : ∀ k, k ∈ kw2.map Prod.fst → k ∈ kw1.map Prod.fst) :
    ∃ tables1 tables2 t,
      log_dict tables0 name kw1 = .ok tables1 ∧
      log_dict tables1 name kw2 = .ok tables2 ∧
      tables2 name = some t ∧
      t.schema = kw1.map Prod.fst ∧
      t.rows = [t.schema.map (fun c => (c, lookupKw c kw2))] ∧
      rowKey (t.schema.map (fun c => (c, lookupKw c kw2))) = some v := by
  have hmem1 : "SiteID" ∈ kw1.map Prod.fst := lookupKw_mem h1
  set row1 := (kw1.map Prod.fst).map (fun c => (c, lookupKw c kw1)) with hrow1
  set row2 := (kw1.map Prod.fst).map (fun c => (c, lookupKw c kw2)) with hrow2
  set t1 : SqlTable :=
    { schema := kw1.map Prod.fst, pkSiteID := true, rows := [row1] } with ht1
  set t2 : SqlTable :=
    { schema := kw1.map Prod.fst, pkSiteID := true, rows := [row2] } with ht2
  have hkey1 : rowKey row1 = some v := by
    unfold rowKey
    rw [hrow1, lookupCell_padded _ _ _ hmem1, h1]
  have hpk1 : (kw1.any fun p => p.1 == "SiteID") = true := by
    simpa [createTable] using createTable_pk kw1 v h1
  have hw1 : write_row (tables0 name) kw1 = .ok t1 := by
    rw [hnone]
    unfold write_row
    rw [insert_or_replace_upsert (createTable kw1) kw1 v
      (createTable_pk kw1 v h1) (fun k hk => hk) h1]
    rw [ht1]
    simp only [createTable, hpk1, List.filter_nil, List.nil_append, List.map_map]
    rw [hrow1, ← List.map_map]
  have hw2 : write_row (some t1) kw2 = .ok t2 := by
    unfold write_row
    rw [insert_or_replace_upsert t1 kw2 v rfl hsub h2]
    have hfilter : ([row1].filter (fun r => decide (rowKey r ≠ some v))) = [] := by
      simp [List.filter, hkey1]
    rw [ht1]
    dsimp only
    rw [hfilter]
    rfl
  refine ⟨fun n => if n = name then some t1 else tables0 n,
          fun n => if n = name then some t2
                   else if n = name then some t1 else tables0 n,
          t2, ?_, ?_, ?_, rfl, rfl, ?_⟩
  · unfold log_dict
    rw [hw1]
    rfl
  · unfold log_dict
    simp only [if_pos]
    rw [hw2]
    rfl
  · simp
  · unfold rowKey
    rw [lookupCell_padded _ _ _ hmem1, h2]

/-- Witness for C3: two logged rows with `SiteID = "s1"`, the second
updating the `yld` value, leave one row carrying the later value. -/
theorem c3_log_key_uniqueness_witness :
    ∃ tables1 tables2 t,
      log_dict (fun _ => none) "cb" [("SiteID", "s1"), ("yld", "7")] = .ok tables1 ∧
      log_dict tables1 "cb" [("SiteID", "s1"), ("yld", "9")] = .ok tables2 ∧
      tables2 "cb" = some t ∧
      t.schema = [("SiteID", "s1"), ("yld", "7")].map Prod.fst ∧
      t.rows = [t.schema.map (fun c => (c, lookupKw c [("SiteID", "s1"), ("yld", "9")]))] ∧
      rowKey (t.schema.map (fun c => (c, lookupKw c [("SiteID", "s1"), ("yld", "9")]))) =
        some "s1" :=
  c3_log_key_uniqueness (fun _ => none) "cb" [("SiteID", "s1"), ("yld", "7")]
    [("SiteID", "s1"), ("yld", "9")] "s1" rfl rfl rfl (fun _ hk => hk)

/-- Counterexample for C3 as originally stated: two `log("cb", row)`
calls carry the same `SiteID = "s1"`, the first creating the table, but
the second row brings the extra key `yld`.  The second write then raises
`sqlite3.OperationalError` (`no such column`: `CREATE TABLE IF NOT
EXISTS` does not extend the existing one-column table, and the
`INSERT OR REPLACE` names an unknown column), so no table of the later
call's values exists; after the first call — and unchanged by the failed
second one — the stored table holds the first call's row rather than the
later call's values. -/
theorem c3_log_dict_extra_key_counterexample :
    (log_dict (fun _ => none) "cb" [("SiteID", "s1")]).bind
        (fun tables1 => log_dict tables1 "cb" [("SiteID", "s1"), ("yld", "9")]) =
      .error (.sqlOperationalError "no such column") ∧
    (log_dict (fun _ => none) "cb" [("SiteID", "s1")]).map (fun tables1 => tables1 "cb") =
      .ok (some { schema := ["SiteID"], pkSiteID := true
                  rows := [[("SiteID", some "s1")]] }) := by
  exact ⟨rfl, rfl⟩

/-- Helper: the collection fold records exactly the failing indices, in
completion order, after any already-recorded ones. -/
theorem peFold_failed (outcomes : Nat → TaskOutcome α) (rv : Bool)
    (todo : List Nat) (res0 : List (Option α)) (fail0 : List Nat) :
    (todo.foldl (peStep outcomes rv) (res0, fail0)).2 =
      fail0 ++ todo.filter (fun i => !isOkOutcome (outcomes i)) := by
  induction todo generalizing res0 fail0 with
  | nil => simp
  | cons t ts ih =>
      rw [List.foldl_cons]
      cases ht : outcomes t with
      | ok v =>
          rw [List.filter_cons]
          simp [peStep, ht, isOkOutcome, ih]
      | exc m =>
          rw [List.filter_cons]
          simp [peStep, ht, isOkOutcome, ih]
      | timedOut =>
          rw [List.filter_cons]
          simp [peStep, ht, isOkOutcome, ih]

/-- Helper: the collection fold never changes the length of the results
list. -/
theorem peFold_length (outcomes : Nat → TaskOutcome α) (rv : Bool)
    (todo : List Nat) (res0 : List (Option α)) (fail0 : List Nat) :
    (todo.foldl (peStep outcomes rv) (res0, fail0)).1.length = res0.length := by
  induction todo generalizing res0 fail0 with
  | nil => rfl
  | cons t ts ih =>
      rw [List.foldl_cons]
      cases ht : outcomes t with
      | ok v =>
          cases rv with
          | true => simp [peStep, ht, ih]
          | false => simp [peStep, ht, ih]
      | exc m => simp [peStep, ht, ih]
      | timedOut => simp [peStep, ht, ih]

/-- Helper: an index never processed keeps its original results slot. -/
theorem peFold_notMem (outcomes : Nat → TaskOutcome α) (rv : Bool)
    (todo : List Nat) (res0 : List (Option α)) (fail0 : List Nat)
    (j : Nat) (hj : j ∉ todo) :
    (todo.foldl (peStep outcomes rv) (res0, fail0)).1[j]? = res0[j]? := by
  induction todo generalizing res0 fail0 with
  | nil => rfl
  | cons t ts ih =>
      have hne : t ≠ j := fun h => hj (h ▸ List.mem_cons_self t ts)
      have hts : j ∉ ts := fun h => hj (List.mem_cons_of_mem t h)
      rw [List.foldl_cons]
      cases ht : outcomes t with
      | ok v =>
          cases rv with
          | true => simp [peStep, ht, ih _ _ hts, List.getElem?_set_ne hne]
          | false => simp [peStep, ht, ih _ _ hts]
      | exc m => simp [peStep, ht, ih _ _ hts]
      | timedOut => simp [peStep, ht, ih _ _ hts]

/-- Helper: an index whose task failed keeps its original results slot. -/
theorem peFold_failSlot (outcomes : Nat → TaskOutcome α) (rv : Bool)
    (todo : List Nat) (res0 : List (Option α)) (fail0 : List Nat)
    (j : Nat) (hj : ∀ v, outcomes j ≠ .ok v) :
    (todo.foldl (peStep outcomes rv) (res0, fail0)).1[j]? = res0[j]? := by
  induction todo generalizing res0 fail0 with
  | nil => rfl
  | cons t ts ih =>
      rw [List.foldl_cons]
      cases ht : outcomes t with
      | ok v =>
          have hne : t ≠ j := fun h => hj v (h ▸ ht)
          cases rv with
          | true => simp [peStep, ht, ih, List.getElem?_set_ne hne]
          | false => simp [peStep, ht, ih]
      | exc m => simp [peStep, ht, ih]
      | timedOut => simp [peStep, ht, ih]

/-- Helper: a processed successful index holds its value when
`return_value` is set. -/
theorem peFold_okSlot (outcomes : Nat → TaskOutcome α)
    (todo : List Nat) (res0 : List (Option α)) (fail0 : List Nat)
    (j : Nat) (v : α) (hv : outcomes j = .ok v) (hj : j ∈ todo)
    (hlen : j < res0.length) :
    (todo.foldl (peStep outcomes true) (res0, fail0)).1[j]? = some (some v) := by
  induction todo generalizing res0 fail0 with
  | nil => cases hj
  | cons t ts ih =>
      rw [List.foldl_cons]
      by_cases hmem : j ∈ ts
      · cases ht : outcomes t with
        | ok w => exact ih _ _ hmem (by simpa [peStep, ht] using hlen)
        | exc m => exact ih _ _ hmem (by simpa [peStep, ht] using hlen)
        | timedOut => exact ih _ _ hmem (by simpa [peStep, ht] using hlen)
      · have hjt : j = t := by
          rcases List.mem_cons.mp hj with h | h
          · exact h
          · exact absurd h hmem
        subst hjt
        rw [peStep, hv]
        dsimp only
        rw [peFold_notMem outcomes true ts _ _ j hmem]
        simp [List.getElem?_set_self, hlen]

/-- C9: for every outcome oracle and completion order (each of the `n`
submitted futures yielded exactly once), `parallel_executor` returns
`(results, failed_indices)` where `failed_indices` are exactly the
indices whose task raised or timed out, in completion order — so a
failure never aborts the remaining tasks; a failed index's results slot
stays unset (`None`); a slot holds a value only when `return_value` is
set and the task succeeded; and every successful task's value is
recorded when `return_value` is set.  Totality of the embedding reflects
that per-task exceptions are caught inside the loop and never propagate
out of the call. -/
theorem c9_parallel_executor (outcomes : Nat → TaskOutcome α) (n : Nat)
    (rv : Bool) (order : List Nat)
    (hmem : ∀ i, i ∈ order ↔ i < n) (_hnd : order.Nodup) :
    (parallel_executor outcomes n rv order).2 =
      order.filter (fun i => !isOkOutcome (outcomes i)) ∧
    (∀ i, i < n → (∀ v, outcomes i ≠ .ok v) →
      i ∈ (parallel_executor outcomes n rv order).2) ∧
    (∀ i, i < n → (∀ v, outcomes i ≠ .ok v) → rv = true →
      (parallel_executor outcomes n rv order).1[i]? = some none) ∧
    (∀ i v, (parallel_executor outcomes n rv order).1[i]? = some (some v) →
      rv = true ∧ outcomes i = .ok v) ∧
    (∀ i v, i < n → rv = true → outcomes i = .ok v →
      (parallel_executor outcomes n rv order).1[i]? = some (some v)) := by
  have hfail : (parallel_executor outcomes n rv order).2 =
      order.filter (fun i => !isOkOutcome (outcomes i)) := by
    unfold parallel_executor
    rw [peFold_failed, List.nil_append]
  refine ⟨hfail, ?_, ?_, ?_, ?_⟩
  · intro i hi hbad
    rw [hfail]
    refine List.mem_filter.mpr ⟨(hmem i).mpr hi, ?_⟩
    cases ho : outcomes i with
    | ok v => exact absurd ho (hbad v)
    | exc m => simp [isOkOutcome]
    | timedOut => simp [isOkOutcome]
  · intro i hi hbad hrv
    subst hrv
    unfold parallel_executor
    rw [peFold_failSlot outcomes true order _ _ i hbad]
    simp [hi]
  · intro i v hslot
    cases hrv : rv with
    | false =>
        subst hrv
        exfalso
        have hlen : (parallel_executor outcomes n false order).1.length = 0 := by
          unfold parallel_executor
          rw [peFold_length]
          rfl
        rw [List.getElem?_eq_none (by omega)] at hslot
        cases hslot
    | true =>
        subst hrv
        unfold parallel_executor at hslot
        rw [if_pos rfl] at hslot
        refine ⟨rfl, ?_⟩
        cases ho : outcomes i with
        | ok w =>
            have hin : i < n := by
              by_contra hno
              have hnotmem : i ∉ order := fun hm => hno ((hmem i).mp hm)
              rw [peFold_notMem outcomes true order _ _ i hnotmem,
                List.getElem?_eq_none (by simpa using hno)] at hslot
              cases hslot
            have hok := peFold_okSlot outcomes order
              (List.replicate n none) [] i w ho ((hmem i).mpr hin) (by simpa using hin)
            rw [hok] at hslot
            cases hslot
            rfl
        | exc m =>
            exfalso
            rw [peFold_failSlot outcomes true order _ _ i
              (fun v h => TaskOutcome.noConfusion (ho ▸ h))] at hslot
            rcases lt_or_ge i n with hin | hin
            · rw [List.getElem?_replicate, if_pos hin] at hslot
              cases hslot
            · rw [List.getElem?_eq_none (by simpa using hin)] at hslot
              cases hslot
        | timedOut =>
            exfalso
            rw [peFold_failSlot outcomes true order _ _ i
              (fun v h => TaskOutcome.noConfusion (ho ▸ h))] at hslot
            rcases lt_or_ge i n with hin | hin
            · rw [List.getElem?_replicate, if_pos hin] at hslot
              cases hslot
            · rw [List.getElem?_eq_none (by simpa using hin)] at hslot
              cases hslot
  · intro i v hi hrv ho
    subst hrv
    unfold parallel_executor
    exact peFold_okSlot outcomes order _ [] i v ho ((hmem i).mpr hi)
      (by simpa using hi)

/-- Witness for C9 with three tasks completing in the order `[2, 0, 1]`:
the raising and timed-out tasks are the failed indices, the successful
task's value is stored, and the raising task's slot stays unset. -/
theorem c9_parallel_executor_witness :
    (parallel_executor outcomesW 3 true [2, 0, 1]).2 = [2, 1] ∧
    (parallel_executor outcomesW 3 true [2, 0, 1]).1[0]? = some (some 10) ∧
    (parallel_executor outcomesW 3 true [2, 0, 1]).1[1]? = some none := by
  have h := c9_parallel_executor outcomesW 3 true [2, 0, 1]
    (by intro i; simp; omega) (by decide)
  refine ⟨?_, ?_, ?_⟩
  · rw [h.1]
    rfl
  · exact h.2.2.2.2 0 10 (by omega) rfl rfl
  · exact h.2.2.1 1 (by omega) (fun v hv => by simp [outcomesW] at hv) rfl

/-- Helper: digit characters are digits. -/
theorem digitChar_isDigit (k : Nat) (h : k < 10) : isDigitCh (digitChar k) = true := by
  interval_cases k <;> decide

/-- Helper: the value of a digit character. -/
theorem digitChar_val (k : Nat) (h : k < 10) : digitVal (digitChar k) = k := by
  interval_cases k <;> decide

/-- Helper: a rendered number is never the empty string. -/
theorem natDigits_ne_nil (n : Nat) : natDigits n ≠ [] := by
  rw [natDigits]
  split
  · simp
  · simp

/-- Helper: a rendered number consists of digit characters. -/
theorem natDigits_all_digit (n : Nat) : (natDigits n).all isDigitCh = true := by
  induction n using Nat.strong_induction_on with
  | _ n ih =>
      rw [natDigits]
      split
      · rename_i h
        simpa using digitChar_isDigit n h
      · rename_i h
        rw [List.all_append]
        have h1 := ih (n / 10) (Nat.div_lt_self (by omega) (by omega))
        have h2 := digitChar_isDigit (n % 10) (Nat.mod_lt n (by omega))
        simp [h1, h2]

/-- Helper: the value of a digit list extended by one digit. -/
theorem digitsVal_concat (xs : List Char) (d : Char) :
    digitsVal (xs ++ [d]) = digitsVal xs * 10 + digitVal d := by
  simp [digitsVal, List.foldl_append]

/-- Helper: rendering then revaluing a natural number is the identity. -/
theorem digitsVal_natDigits (n : Nat) : digitsVal (natDigits n) = n := by
  induction n using Nat.strong_induction_on with
  | _ n ih =>
      rw [natDigits]
      split
      · rename_i h
        simp [digitsVal, digitChar_val n h]
      · rename_i h
        rw [digitsVal_concat,
          ih (n / 10) (Nat.div_lt_self (by omega) (by omega)),
          digitChar_val (n % 10) (Nat.mod_lt n (by omega))]
        omega

/-- Helper: a number below `10^(k+1)` renders in at most `k+1` digits. -/
theorem natDigits_length_le (k : Nat) : ∀ n, n < 10 ^ (k + 1) → (natDigits n).length ≤ k + 1 := by
  induction k with
  | zero =>
      intro n h
      rw [natDigits]
      split
      · simp
      · rename_i h2
        exfalso
        omega
  | succ k ih =>
      intro n h
      rw [natDigits]
      split
      · simp
      · rename_i h2
        rw [List.length_append]
        have hdiv : n / 10 < 10 ^ (k + 1) := by
          rw [Nat.div_lt_iff_lt_mul (by omega)]
          calc n < 10 ^ (k + 2) := h
            _ = 10 ^ (k + 1) * 10 := by ring
        have := ih (n / 10) hdiv
        simp
        omega

/-- Helper: digit characters are not whitespace. -/
theorem isDigit_not_space (c : Char) (h : isDigitCh c = true) : isSpc c = false := by
  by_cases e1 : c = ' '
  · subst e1; exact absurd h (by decide)
  · by_cases e2 : c = '\t'
    · subst e2; exact absurd h (by decide)
    · by_cases e3 : c = '\n'
      · subst e3; exact absurd h (by decide)
      · by_cases e4 : c = '\r'
        · subst e4; exact absurd h (by decide)
        · simp [isSpc, e1, e2, e3, e4]

/-- Helper: `dropWhile` eats a whitespace prefix. -/
theorem dropWhile_replicate_space (k : Nat) (l : List Char) :
    (List.replicate k ' ' ++ l).dropWhile isSpc = l.dropWhile isSpc := by
  induction k with
  | zero => simp
  | succ k ih => simpa [List.replicate_succ, List.dropWhile] using ih

/-- Helper: stripping a left-padded all-digit field yields the digits. -/
theorem pyStrip_pad (l : List Char) (w : Nat) (hne : l ≠ [])
    (hall : l.all isDigitCh = true) : pyStrip (padLeftSpaces w l) = l := by
  unfold pyStrip padLeftSpaces
  rw [dropWhile_replicate_space]
  have hnosp : ∀ c ∈ l, isSpc c = false := by
    intro c hc
    exact isDigit_not_space c (by
      have := List.all_eq_true.mp hall c hc
      simpa using this)
  have h1 : l.dropWhile isSpc = l := by
    cases l with
    | nil => rfl
    | cons c cs =>
        rw [List.dropWhile_cons_of_neg]
        simp [hnosp c (List.mem_cons_self c cs)]
  have h2 : l.reverse.dropWhile isSpc = l.reverse := by
    cases hr : l.reverse with
    | nil => rfl
    | cons c cs =>
        rw [List.dropWhile_cons_of_neg]
        have hcmem : c ∈ l := by
          rw [← List.mem_reverse, hr]
          exact List.mem_cons_self c cs
        simp [hnosp c hcmem]
  rw [h1, h2, List.reverse_reverse]

/-- Helper: `int()` of a non-empty all-digit character list. -/
theorem pyIntOf_digits (l : List Char) (hne : l ≠ [])
    (hall : l.all isDigitCh = true) : pyIntOf l = some (digitsVal l : Int) := by
  have hnosp : ∀ c ∈ l, isSpc c = false := by
    intro c hc
    exact isDigit_not_space c (by
      have := List.all_eq_true.mp hall c hc
      simpa using this)
  have hstrip : pyStrip l = l := by
    have := pyStrip_pad l 0 hne hall
    simpa [padLeftSpaces] using this
  unfold pyIntOf
  rw [hstrip]
  cases l with
  | nil => exact absurd rfl hne
  | cons c cs =>
      have hcdig : isDigitCh c = true := by
        have := List.all_eq_true.mp hall c (List.mem_cons_self c cs)
        simpa using this
      have hcm : c ≠ '-' := by
        intro e
        subst e
        exact absurd hcdig (by decide)
      have hcp : c ≠ '+' := by
        intro e
        subst e
        exact absurd hcdig (by decide)
      split
      · rename_i r heq
        exact absurd (List.cons.inj heq).1 hcm
      · rename_i r heq
        exact absurd (List.cons.inj heq).1 hcp
      · unfold parseNatDigits
        rw [if_neg (by simp), if_pos hall]
        rfl

/-- Helper: rendering a non-negative integer uses the plain digits. -/
theorem intChars_nonneg (v : Int) (h : 0 ≤ v) : intChars v = natDigits v.toNat := by
  unfold intChars
  rw [if_neg (not_lt.mpr h)]

/-- Helper: a value of at most four digits fills the 4-character field
exactly. -/
theorem fmtInt4_length (v : Int) (h0 : 0 ≤ v) (h4 : v ≤ 9999) :
    (fmtInt4 v).length = 4 := by
  unfold fmtInt4 padLeftSpaces
  rw [intChars_nonneg v h0]
  have hlen : (natDigits v.toNat).length ≤ 4 := natDigits_length_le 3 v.toNat (by omega)
  simp only [List.length_append, List.length_replicate]
  omega

/-- Helper: `int(strip(...))` of the 4-character field recovers the
value. -/
theorem pyIntOf_pyStrip_fmtInt4 (v : Int) (h0 : 0 ≤ v) :
    pyIntOf (pyStrip (fmtInt4 v)) = some v := by
  unfold fmtInt4
  rw [intChars_nonneg v h0,
    pyStrip_pad _ _ (natDigits_ne_nil _) (natDigits_all_digit _),
    pyIntOf_digits _ (natDigits_ne_nil _) (natDigits_all_digit _),
    digitsVal_natDigits, Int.toNat_of_nonneg h0]

/-- Helper: months have at most 31 days. -/
theorem daysInMonth_le (y m : Int) : daysInMonth y m ≤ 31 := by
  unfold daysInMonth
  repeat' split <;> omega

/-- C7: with a well-formed first line (at least 17 characters) and values
that fit their fields, setting `duration` rewrites exactly the first 4
characters of line 1 — characters 4 onward and every other line are
byte-for-byte preserved — and setting `start_date` rewrites exactly
characters 4-15 of line 1, preserving characters 0-3 and 16 onward and
every other line; in both cases a subsequent read of the same property
returns the value just written. -/
theorem c7_epiccont_fixed_width (line0 : List Char) (rest : List (List Char))
    (v y m d : Int)
    (hlen : 16 < line0.length) (hv0 : 0 ≤ v) (hv4 : v ≤ 9999)
    (hd : isValidDate y m d = true) :
    (setDuration (line0 :: rest) v = some ((fmtInt4 v ++ line0.drop 4) :: rest) ∧
     (fmtInt4 v).length = 4 ∧
     getDuration ((fmtInt4 v ++ line0.drop 4) :: rest) = some v) ∧
    (setStartDate (line0 :: rest) y m d =
        some ((line0.take 4 ++ (fmtInt4 y ++ (fmtInt4 m ++ (fmtInt4 d ++ line0.drop 16)))) :: rest) ∧
     getStartDate ((line0.take 4 ++ (fmtInt4 y ++ (fmtInt4 m ++ (fmtInt4 d ++ line0.drop 16)))) :: rest) =
        some (y, m, d)) := by
  have hvals : ((((1 ≤ y ∧ y ≤ 9999) ∧ 1 ≤ m) ∧ m ≤ 12) ∧ 1 ≤ d) ∧ d ≤ daysInMonth y m := by
    simpa [isValidDate, decide_eq_true_eq] using hd
  obtain ⟨⟨⟨⟨⟨hy1, hy2⟩, hm1⟩, hm2⟩, hd1⟩, hd2⟩ := hvals
  have hdm := daysInMonth_le y m
  have hly : (fmtInt4 y).length = 4 := fmtInt4_length y (by omega) (by omega)
  have hlm : (fmtInt4 m).length = 4 := fmtInt4_length m (by omega) (by omega)
  have hld : (fmtInt4 d).length = 4 := fmtInt4_length d (by omega) (by omega)
  have hlv : (fmtInt4 v).length = 4 := fmtInt4_length v hv0 hv4
  have ht4 : (line0.take 4).length = 4 := by
    rw [List.length_take]
    omega
  refine ⟨⟨?_, hlv, ?_⟩, ?_, ?_⟩
  · unfold setDuration
    dsimp only
    rw [if_pos (show (4 : Nat) < line0.length by omega)]
  · unfold getDuration lineSlice
    dsimp only
    rw [List.drop_zero, Nat.sub_zero, ← hlv, List.take_left]
    exact pyIntOf_pyStrip_fmtInt4 v hv0
  · unfold setStartDate
    dsimp only
    rw [if_pos (show (16 : Nat) < line0.length by omega)]
    simp [List.append_assoc]
  · unfold getStartDate lineSlice
    dsimp only
    have s1 : ((line0.take 4 ++ (fmtInt4 y ++ (fmtInt4 m ++ (fmtInt4 d ++ line0.drop 16)))).drop 4).take 4 =
        fmtInt4 y := by
      rw [List.drop_left' ht4, List.take_left' hly]
    have s2 : ((line0.take 4 ++ (fmtInt4 y ++ (fmtInt4 m ++ (fmtInt4 d ++ line0.drop 16)))).drop 8).take 4 =
        fmtInt4 m := by
      rw [show (8 : Nat) = 4 + 4 by rfl, ← List.drop_drop, List.drop_left' ht4,
        List.drop_left' hly, List.take_left' hlm]
    have s3 : ((line0.take 4 ++ (fmtInt4 y ++ (fmtInt4 m ++ (fmtInt4 d ++ line0.drop 16)))).drop 12).take 4 =
        fmtInt4 d := by
      rw [show (12 : Nat) = 8 + 4 by rfl, ← List.drop_drop,
        show (8 : Nat) = 4 + 4 by rfl, ← List.drop_drop, List.drop_left' ht4,
        List.drop_left' hly, List.drop_left' hlm, List.take_left' hld]
    rw [s1, s2, s3]
    rw [pyIntOf_pyStrip_fmtInt4 y (by omega), pyIntOf_pyStrip_fmtInt4 m (by omega),
      pyIntOf_pyStrip_fmtInt4 d (by omega)]
    dsimp only
    rw [if_pos hd]

/-- Witness for C7 on a concrete 20-character first line: writing
duration 12 and start date 2015-03-07 round-trips through the file. -/
theorem c7_epiccont_fixed_width_witness :
    (setDuration (List.replicate 20 ' ' :: []) 12 =
        some ((fmtInt4 12 ++ (List.replicate 20 ' ').drop 4) :: []) ∧
     (fmtInt4 12).length = 4 ∧
     getDuration ((fmtInt4 12 ++ (List.replicate 20 ' ').drop 4) :: []) = some 12) ∧
    (setStartDate (List.replicate 20 ' ' :: []) 2015 3 7 =
        some (((List.replicate 20 ' ').take 4 ++
          (fmtInt4 2015 ++ (fmtInt4 3 ++ (fmtInt4 7 ++ (List.replicate 20 ' ').drop 16)))) :: []) ∧
     getStartDate (((List.replicate 20 ' ').take 4 ++
          (fmtInt4 2015 ++ (fmtInt4 3 ++ (fmtInt4 7 ++ (List.replicate 20 ' ').drop 16)))) :: []) =
        some (2015, 3, 7)) :=
  c7_epiccont_fixed_width (List.replicate 20 ' ') [] 12 2015 3 7
    (by simp) (by norm_num) (by norm_num) (by decide)

/-- Helper: reading back the key just assigned in an outputs dict. -/
theorem lookupOutput_setOutput_self (outs : List (String × List String))
    (k : String) (v : List String) :
    lookupOutput (setOutput outs k v) k = some v := by
  induction outs with
  | nil => simp [setOutput, lookupOutput, List.find?]
  | cons p rest ih =>
      obtain ⟨k2, v2⟩ := p
      unfold setOutput
      by_cases h : k2 = k
      · subst h
        rw [if_pos rfl]
        simp [lookupOutput, List.find?]
      · rw [if_neg h]
        unfold lookupOutput
        rw [List.find?_cons_of_neg _ (by simpa using h)]
        exact ih

/-- Helper: assigning one key leaves the other keys' values unchanged. -/
theorem lookupOutput_setOutput_ne (outs : List (String × List String))
    (k k2 : String) (v : List String) (h : k2 ≠ k) :
    lookupOutput (setOutput outs k v) k2 = lookupOutput outs k2 := by
  induction outs with
  | nil =>
      unfold setOutput lookupOutput
      rw [List.find?_cons_of_neg _ (by simp; exact fun e => h e.symm)]
  | cons p rest ih =>
      obtain ⟨k3, v3⟩ := p
      unfold setOutput
      by_cases hk : k3 = k
      · subst hk
        rw [if_pos rfl]
        unfold lookupOutput
        rw [List.find?_cons_of_neg _ (by simpa using fun e => h e.symm),
          List.find?_cons_of_neg _ (by simpa using fun e => h e.symm)]
      · rw [if_neg hk]
        unfold lookupOutput
        by_cases hq : k3 = k2
        · subst hq
          rw [List.find?_cons_of_pos _ (by simp), List.find?_cons_of_pos _ (by simp)]
        · rw [List.find?_cons_of_neg _ (by simpa using hq),
            List.find?_cons_of_neg _ (by simpa using hq)]
          exact ih

/-- Helper: a fold of assignments over keys not containing `t` leaves
`t`'s value unchanged. -/
theorem lookupOutput_fold_notMem (ts : List String) (f : String → List String)
    (outs0 : List (String × List String)) (t : String) (ht : t ∉ ts) :
    lookupOutput (ts.foldl (fun o u => setOutput o u (f u)) outs0) t =
      lookupOutput outs0 t := by
  induction ts generalizing outs0 with
  | nil => rfl
  | cons u us ih =>
      have hne : t ≠ u := fun e => ht (e ▸ List.mem_cons_self u us)
      have hus : t ∉ us := fun hm => ht (List.mem_cons_of_mem u hm)
      rw [List.foldl_cons, ih _ hus, lookupOutput_setOutput_ne _ _ _ _ hne]

/-- Helper: after folding assignments over a duplicate-free key list,
every folded key reads back its assigned value. -/
theorem lookupOutput_fold (ts : List String) (f : String → List String)
    (outs0 : List (String × List String)) (hnd : ts.Nodup) :
    ∀ t ∈ ts, lookupOutput (ts.foldl (fun o u => setOutput o u (f u)) outs0) t =
      some (f t) := by
  induction ts generalizing outs0 with
  | nil => intro t ht; cases ht
  | cons u us ih =>
      intro t ht
      rw [List.foldl_cons]
      rcases List.mem_cons.mp ht with h | h
      · subst h
        have hni : t ∉ us := (List.nodup_cons.mp hnd).1
        rw [lookupOutput_fold_notMem us f _ t hni, lookupOutput_setOutput_self]
      · exact ih _ (List.nodup_cons.mp hnd).2 t h

/-- Helper: ensuring `ACY` preserves freedom from duplicates. -/
theorem ensureACY_nodup (ts : List String) (h : ts.Nodup) : (ensureACY ts).Nodup := by
  unfold ensureACY
  split
  · exact h
  · rename_i hni
    simp [List.nodup_append, h, hni]

/-- C2: when every enabled output file of the site already exists
non-empty under the output root, `EPICModel.run` launches nothing and
changes nothing — the outcome records `launched = false`, the file system
is returned untouched (no sandbox is created), no error is raised — and
`site.outputs` maps every enabled kind to exactly the existing path. -/
theorem c2_run_short_circuit (cfg : EPICModelCfg) (site : SiteState)
    (dest : Option (List String)) (engine : FS → FS × Int) (fs : FS)
    (hnd : cfg.output_types.Nodup)
    (hall : allOutputsExist cfg site.site_id dest fs = true) :
    EPICModel.run cfg site dest engine fs =
      { launched := false
        fs := fs
        site_outputs := (ensureACY cfg.output_types).foldl
          (fun o t => setOutput o t (outRoot cfg dest ++ [outName site.site_id t]))
          site.outputs
        err := none } ∧
    ∀ t, t ∈ ensureACY cfg.output_types →
      lookupOutput (EPICModel.run cfg site dest engine fs).site_outputs t =
        some (outRoot cfg dest ++ [outName site.site_id t]) := by
  have hrun : EPICModel.run cfg site dest engine fs =
      { launched := false
        fs := fs
        site_outputs := (ensureACY cfg.output_types).foldl
          (fun o t => setOutput o t (outRoot cfg dest ++ [outName site.site_id t]))
          site.outputs
        err := none } := by
    unfold EPICModel.run
    dsimp only
    rw [if_pos hall]
  refine ⟨hrun, ?_⟩
  intro t ht
  rw [hrun]
  exact lookupOutput_fold (ensureACY cfg.output_types)
    (fun u => outRoot cfg dest ++ [outName site.site_id u]) site.outputs
    (ensureACY_nodup cfg.output_types hnd) t ht

/-- Witness for C2: with the single enabled output already present
non-empty, `run` reports no launch, leaves the file system untouched,
raises nothing, and records the existing path. -/
theorem c2_run_short_circuit_witness :
    (EPICModel.run cfgW2 siteW2 none (fun s => (s, 0)) fsW2).launched = false ∧
    (EPICModel.run cfgW2 siteW2 none (fun s => (s, 0)) fsW2).fs = fsW2 ∧
    (EPICModel.run cfgW2 siteW2 none (fun s => (s, 0)) fsW2).err = none ∧
    lookupOutput (EPICModel.run cfgW2 siteW2 none (fun s => (s, 0)) fsW2).site_outputs "ACY" =
      some (outRoot cfgW2 none ++ [outName "7" "ACY"]) := by
  have h := c2_run_short_circuit cfgW2 siteW2 none (fun s => (s, 0)) fsW2
    (by decide) (by decide)
  exact ⟨congrArg RunOutcome.launched h.1, congrArg RunOutcome.fs h.1,
    congrArg RunOutcome.err h.1, h.2 "ACY" (by decide)⟩

/-- Helper: appending one component to a path is injective in both the
directory and the final component. -/
theorem path_snoc_inj {p q : List String} {a b : String}
    (h : p ++ [a] = q ++ [b]) : p = q ∧ a = b := by
  have hr := congrArg List.reverse h
  simp only [List.reverse_append, List.reverse_singleton, List.singleton_append] at hr
  obtain ⟨h1, h2⟩ := List.cons.inj hr
  exact ⟨by simpa using congrArg List.reverse h2, h1⟩

/-- Helper: string concatenation is left-cancellative. -/
theorem strAppend_cancel_left {s a b : String} (h : s ++ a = s ++ b) : a = b := by
  have hd := congrArg String.data h
  rw [String.data_append, String.data_append] at hd
  exact String.ext (List.append_cancel_left hd)

/-- Helper: output file names are injective in the output kind. -/
theorem outName_inj {fid a b : String} (h : outName fid a = outName fid b) : a = b := by
  unfold outName at h
  exact strAppend_cancel_left h

/-- Helper: an output file name collides with the engine log name only
for the kind `"log"`. -/
theorem outName_ne_logName {fid t : String} (h : t ≠ "log") :
    outName fid t ≠ logName fid := by
  intro he
  apply h
  have hl : logName fid = fid ++ "." ++ "log" := by
    unfold logName
    rw [show (".log" : String) = "." ++ "log" from by decide, ← String.append_assoc]
  rw [hl] at he
  exact strAppend_cancel_left (by unfold outName at he; exact he)

/-- Helper: a move leaves every uninvolved path untouched. -/
theorem moveFile_other (fs : FS) (src dst p : List String)
    (h1 : p ≠ dst) (h2 : p ≠ src) : moveFile fs src dst p = fs p := by
  simp [moveFile, h1, h2]

/-- Helper: the cleanup of the run directory leaves paths outside it
untouched. -/
theorem runCleanup_other (cfg : EPICModelCfg) (newDir : List String) (fs : FS)
    (p : List String) (h : ¬ newDir <+: p) : runCleanup cfg newDir fs p = fs p := by
  unfold runCleanup rmtreeFS
  split
  · simp [h]
  · rfl

/-- Helper: if any remaining output kind is missing or empty in the run
directory, the harvest loop raises and moves the engine log — whose
content is the one present when the loop started — to the log
directory. -/
theorem processOutputs_fail (newDir root logDir : List String) (fid : String)
    (hroot : newDir ≠ root) :
    ∀ (ts : List String) (fs : FS) (outs : List (String × List String)),
    ts.Nodup → "log" ∉ ts →
    (∃ t, t ∈ ts ∧ fileNonEmpty fs (newDir ++ [outName fid t]) = false) →
    ∃ e, (processOutputs newDir root logDir fid fs outs ts).2.2 = some e ∧
      (processOutputs newDir root logDir fid fs outs ts).1 (logDir ++ [logName fid]) =
        fs (newDir ++ [logName fid]) := by
  intro ts
  induction ts with
  | nil =>
      rintro fs outs _ _ ⟨t, ht, _⟩
      cases ht
  | cons u us ih =>
      rintro fs outs hnd hlog ⟨t, ht, hbad⟩
      have hulog : u ≠ "log" := fun e => hlog (e ▸ List.mem_cons_self u us)
      cases hu : fileNonEmpty fs (newDir ++ [outName fid u]) with
      | false =>
          unfold processOutputs
          dsimp only
          rw [hu]
          simp only [Bool.false_eq_true, if_false]
          refine ⟨.fileNotFound u, rfl, ?_⟩
          unfold moveFile
          rw [if_pos rfl]
      | true =>
          have htus : t ∈ us := by
            rcases List.mem_cons.mp ht with h | h
            · subst h
              rw [hu] at hbad
              cases hbad
            · exact h
          have hne_tu : t ≠ u := fun e => (List.nodup_cons.mp hnd).1 (e ▸ htus)
          have hmove_t : moveFile fs (newDir ++ [outName fid u]) (root ++ [outName fid u])
              (newDir ++ [outName fid t]) = fs (newDir ++ [outName fid t]) := by
            apply moveFile_other
            · exact fun he => hroot (path_snoc_inj he).1
            · exact fun he => hne_tu (outName_inj (path_snoc_inj he).2)
          have hmove_log : moveFile fs (newDir ++ [outName fid u]) (root ++ [outName fid u])
              (newDir ++ [logName fid]) = fs (newDir ++ [logName fid]) := by
            apply moveFile_other
            · exact fun he => hroot (path_snoc_inj he).1
            · exact fun he => (outName_ne_logName hulog) (path_snoc_inj he).2.symm
          have hbad2 : fileNonEmpty
              (moveFile fs (newDir ++ [outName fid u]) (root ++ [outName fid u]))
              (newDir ++ [outName fid t]) = false := by
            unfold fileNonEmpty
            rw [hmove_t]
            unfold fileNonEmpty at hbad
            exact hbad
          obtain ⟨e, he1, he2⟩ := ih
            (moveFile fs (newDir ++ [outName fid u]) (root ++ [outName fid u]))
            (setOutput outs u (root ++ [outName fid u]))
            (List.nodup_cons.mp hnd).2
            (fun hm => hlog (List.mem_cons_of_mem u hm))
            ⟨t, htus, hbad2⟩
          unfold processOutputs
          dsimp only
          rw [hu]
          simp only [if_true]
          exact ⟨e, he1, by rw [he2, hmove_log]⟩

/-- C8: (1) whenever, after the engine invocation, some enabled output
file is missing or empty in the run directory, `run` raises an error,
moves the engine log `{SiteID}.log` into the configured log directory
(its content there is the engine-written log), and reports a launch;
(2) the outcome of `run` depends on the engine only through its
file-system effect — two engines with the same effect but different exit
statuses give identical outcomes, so success is decided only by the
presence of non-empty output files, never by the exit status. -/
theorem c8_run_failure_and_exit_status :
    (∀ (cfg : EPICModelCfg) (site : SiteState) (dest : Option (List String))
      (engine : FS → FS × Int) (fs : FS),
      cfg.output_types.Nodup → "log" ∉ cfg.output_types →
      runDir cfg site.site_id dest ≠ outRoot cfg dest →
      ¬ (runDir cfg site.site_id dest <+: (cfg.log_dir ++ [logName site.site_id])) →
      allOutputsExist cfg site.site_id dest fs = false →
      (∃ t, t ∈ ensureACY cfg.output_types ∧
        fileNonEmpty ((engine fs).1)
          (runDir cfg site.site_id dest ++ [outName site.site_id t]) = false) →
      ∃ e, (EPICModel.run cfg site dest engine fs).err = some e ∧
        (EPICModel.run cfg site dest engine fs).fs
            (cfg.log_dir ++ [logName site.site_id]) =
          (engine fs).1 (runDir cfg site.site_id dest ++ [logName site.site_id]) ∧
        (EPICModel.run cfg site dest engine fs).launched = true) ∧
    (∀ (cfg : EPICModelCfg) (site : SiteState) (dest : Option (List String))
      (engine1 engine2 : FS → FS × Int) (fs : FS),
      (engine1 fs).1 = (engine2 fs).1 →
      EPICModel.run cfg site dest engine1 fs = EPICModel.run cfg site dest engine2 fs) := by
  constructor
  · intro cfg site dest engine fs hnd hlog hroot hpre hnall hbad
    have hlogA : "log" ∉ ensureACY cfg.output_types := by
      unfold ensureACY
      split
      · exact hlog
      · intro hm
        rcases List.mem_append.mp hm with h | h
        · exact hlog h
        · simp at h
    obtain ⟨e, he1, he2⟩ := processOutputs_fail (runDir cfg site.site_id dest)
      (outRoot cfg dest) cfg.log_dir site.site_id hroot
      (ensureACY cfg.output_types) ((engine fs).1) site.outputs
      (ensureACY_nodup cfg.output_types hnd) hlogA hbad
    refine ⟨e, ?_, ?_, ?_⟩
    · unfold EPICModel.run
      dsimp only
      rw [hnall]
      simp only [Bool.false_eq_true, if_false]
      exact he1
    · unfold EPICModel.run
      dsimp only
      rw [hnall]
      simp only [Bool.false_eq_true, if_false]
      rw [runCleanup_other cfg (runDir cfg site.site_id dest) _ _ hpre]
      exact he2
    · unfold EPICModel.run
      dsimp only
      rw [hnall]
      simp only [Bool.false_eq_true, if_false]
  · intro cfg site dest engine1 engine2 fs h
    unfold EPICModel.run
    dsimp only
    rw [h]

/-- Witness for C8: with no pre-existing outputs and an engine that
writes only its log, `run` raises, the log lands in the log directory,
and swapping the exit status (0 vs 1) leaves the outcome identical. -/
theorem c8_run_failure_and_exit_status_witness :
    (∃ e, (EPICModel.run cfgW8 siteW8 none engineW8 (fun _ => none)).err = some e ∧
      (EPICModel.run cfgW8 siteW8 none engineW8 (fun _ => none)).fs
          (cfgW8.log_dir ++ [logName siteW8.site_id]) =
        (engineW8 (fun _ => none)).1
          (runDir cfgW8 siteW8.site_id none ++ [logName siteW8.site_id]) ∧
      (EPICModel.run cfgW8 siteW8 none engineW8 (fun _ => none)).launched = true) ∧
    EPICModel.run cfgW8 siteW8 none engineW8 (fun _ => none) =
      EPICModel.run cfgW8 siteW8 none engineW8b (fun _ => none) :=
  ⟨c8_run_failure_and_exit_status.1 cfgW8 siteW8 none engineW8 (fun _ => none)
      (by decide) (by decide) (by decide) (by decide) (by decide)
      ⟨"ACY", by decide, by decide⟩,
    c8_run_failure_and_exit_status.2 cfgW8 siteW8 none engineW8 engineW8b
      (fun _ => none) rfl⟩
